import Mathlib

/-
Verification of the LinqIteratorExtensions cursor surface from
src/examples-rust/src/linq/linq_adapters.rs, together with the free
function in single_tests.rs and the length query of count_tests.rs.

A Rust iterator is embedded as an explicit state-passing step function:
`next` consumes a state and returns the yielded item (or `none` at
exhaustion) together with the updated state, mirroring
`fn next(&mut self) -> Option<Item>`. Closures of type `FnOnce() -> Item`
are embedded as stateful producers `ρ → α × ρ` so that the number of
invocations is observable in the producer state.
-/

namespace Linq

/-- Embedding of the Rust `Iterator` capability: a step function from a
cursor state to an optional item and the successor state. -/
structure Iter (σ : Type) (α : Type) where
  next : σ → Option α × σ

/-- Embedding of `LinqIteratorExtensions::single`: advance once; on `none`
return `none`, on `some x` advance again and return `some x` only if the
second advance signals exhaustion. -/
def single (it : Iter σ α) (s : σ) : Option α × σ :=
  match it.next s with
  | (none, s1) => (none, s1)
  | (some x, s1) =>
    match it.next s1 with
    | (none, s2) => (some x, s2)
    | (some _, s2) => (none, s2)

/-- Embedding of `LinqIteratorExtensions::single_or`: same cardinality
check as `single`, returning `default` on zero-or-many. -/
def single_or (it : Iter σ α) (default : α) (s : σ) : α × σ :=
  match it.next s with
  | (none, s1) => (default, s1)
  | (some x, s1) =>
    match it.next s1 with
    | (none, s2) => (x, s2)
    | (some _, s2) => (default, s2)

/-- Embedding of `LinqIteratorExtensions::single_or_else`. The `FnOnce`
producer `f` is stateful (`ρ → α × ρ`), invoked only on the fallback
paths, exactly as in the source. -/
def single_or_else (it : Iter σ α) (f : ρ → α × ρ) (s : σ) (r : ρ) :
    α × σ × ρ :=
  match it.next s with
  | (none, s1) =>
    match f r with
    | (v, r1) => (v, s1, r1)
  | (some x, s1) =>
    match it.next s1 with
    | (none, s2) => (x, s2, r)
    | (some _, s2) =>
      match f r with
      | (v, r1) => (v, s2, r1)

/-- Embedding of `LinqIteratorExtensions::single_or_default`: the source
delegates to `single_or` with the element type default value. -/
def single_or_default [Inhabited α] (it : Iter σ α) (s : σ) : α × σ :=
  single_or it default s

/-- Embedding of `LinqIteratorExtensions::first_or`:
`self.next().unwrap_or(default)`. -/
def first_or (it : Iter σ α) (default : α) (s : σ) : α × σ :=
  match it.next s with
  | (none, s1) => (default, s1)
  | (some x, s1) => (x, s1)

/-- Embedding of `LinqIteratorExtensions::first_or_else`:
`self.next().unwrap_or_else(f)` with a stateful producer. -/
def first_or_else (it : Iter σ α) (f : ρ → α × ρ) (s : σ) (r : ρ) :
    α × σ × ρ :=
  match it.next s with
  | (none, s1) =>
    match f r with
    | (v, r1) => (v, s1, r1)
  | (some x, s1) => (x, s1, r)

/-- Embedding of `LinqIteratorExtensions::first_or_default`: the source
delegates to `first_or` with the element type default value. -/
def first_or_default [Inhabited α] (it : Iter σ α) (s : σ) : α × σ :=
  first_or it default s

/-- Embedding of the `Intersect` adapter struct: two underlying cursor
states and the `HashSet` of items, modelled as a list of elements. -/
structure Intersect (σa σb : Type) (α : Type) where
  a : σa
  b : σb
  items : List α

/-- Embedding of `impl Iterator for Intersect`: the advance step in the
source is a stub whose body is the single expression `None`, mutating
nothing. -/
def Intersect.next (st : Intersect σa σb α) : Option α × Intersect σa σb α :=
  (none, st)

/-- Cursor over a list, embedding the iterators the tests build from
vectors, ranges, `empty` and `once`: yield the head and keep the tail. -/
def listIter (α : Type) : Iter (List α) α :=
  ⟨fun l =>
    match l with
    | [] => (none, [])
    | x :: xs => (some x, xs)⟩

/-- Embedding of `std::iter::empty`: a cursor that is already exhausted
and always signals exhaustion. -/
def emptyIter (α : Type) : Iter Unit α :=
  ⟨fun u => (none, u)⟩

/-- Instrumented cursor: behaves as `it` and additionally counts how many
times `next` has been invoked. -/
def counted (it : Iter σ α) : Iter (σ × Nat) α :=
  ⟨fun p =>
    match it.next p.1 with
    | (o, s1) => (o, (s1, p.2 + 1))⟩

/-- Instrumented producer: returns `g k` on its k-th invocation and
increments its invocation counter, so the counter records exactly how
many times the `FnOnce` fallback was called. -/
def countingProducer (g : Nat → α) : Nat → α × Nat :=
  fun k => (g k, k + 1)

/-- Free function `single_func` from single_tests.rs: the same branching
as the trait method, written as a standalone function over any cursor. -/
def single_func (it : Iter σ α) (s : σ) : Option α × σ :=
  match it.next s with
  | (none, s1) => (none, s1)
  | (some x, s1) =>
    match it.next s1 with
    | (none, s2) => (some x, s2)
    | (some _, s2) => (none, s2)

/-- Embedding of `ExactSizeIterator::len` on a non-consuming view: the
borrow is by reference (`&self`), so the query returns the count together
with the unchanged view state. -/
def lenQuery (l : List α) : Nat × List α :=
  (l.length, l)

/-- Results of querying the length n times in sequence, each call made on
the view state left by the previous call. -/
def lenQueries (l : List α) : Nat → List Nat
  | 0 => []
  | n + 1 => (lenQuery l).1 :: lenQueries (lenQuery l).2 n

/-- View state left behind after n successive length queries. -/
def afterLenQueries (l : List α) : Nat → List α
  | 0 => l
  | n + 1 => afterLenQueries (lenQuery l).2 n

/-- C1: for every cursor, `single` returns the sole element when the
cursor yields exactly one element, returns `none` when the cursor is
empty, and returns `none` when the cursor yields two or more elements. -/
theorem single_cardinality (it : Iter σ α) (s : σ) :
    (∀ s1, it.next s = (none, s1) → (single it s).1 = none) ∧
    (∀ x s1 s2, it.next s = (some x, s1) → it.next s1 = (none, s2) →
      (single it s).1 = some x) ∧
    (∀ x s1 y s2, it.next s = (some x, s1) → it.next s1 = (some y, s2) →
      (single it s).1 = none) := by
  refine ⟨?_, ?_, ?_⟩
  · intro s1 h
    simp [single, h]
  · intro x s1 s2 h1 h2
    simp [single, h1, h2]
  · intro x s1 y s2 h1 h2
    simp [single, h1, h2]

/-- C2: for every cursor and default `d`, `single_or` returns the element
when exactly one exists and `d` on zero or two-or-more; concretely on
`[]`, `[12]`, `[0,1]` and `[0,1,2]` with `d = 42` it returns 42, 12, 42
and 42. -/
theorem single_or_cardinality (it : Iter σ α) (d : α) (s : σ) :
    (∀ s1, it.next s = (none, s1) → (single_or it d s).1 = d) ∧
    (∀ x s1 s2, it.next s = (some x, s1) → it.next s1 = (none, s2) →
      (single_or it d s).1 = x) ∧
    (∀ x s1 y s2, it.next s = (some x, s1) → it.next s1 = (some y, s2) →
      (single_or it d s).1 = d) ∧
    (single_or (listIter Int) 42 []).1 = 42 ∧
    (single_or (listIter Int) 42 [12]).1 = 12 ∧
    (single_or (listIter Int) 42 [0, 1]).1 = 42 ∧
    (single_or (listIter Int) 42 [0, 1, 2]).1 = 42 := by
  refine ⟨?_, ?_, ?_, rfl, rfl, rfl, rfl⟩
  · intro s1 h
    simp [single_or, h]
  · intro x s1 s2 h1 h2
    simp [single_or, h1, h2]
  · intro x s1 y s2 h1 h2
    simp [single_or, h1, h2]

/-- C3: with an instrumented producer that records each invocation in a
counter, `single_or_else` leaves the counter unchanged (zero invocations)
when exactly one element exists and `first_or_else` leaves it unchanged
when at least one element exists; otherwise each bumps the counter by
exactly one and returns the result of that single invocation. -/
theorem or_else_invocation_counts (it : Iter σ α) (g : Nat → α) (s : σ)
    (k : Nat) :
    (∀ x s1 s2, it.next s = (some x, s1) → it.next s1 = (none, s2) →
      single_or_else it (countingProducer g) s k = (x, s2, k)) ∧
    (∀ s1, it.next s = (none, s1) →
      single_or_else it (countingProducer g) s k = (g k, s1, k + 1)) ∧
    (∀ x s1 y s2, it.next s = (some x, s1) → it.next s1 = (some y, s2) →
      single_or_else it (countingProducer g) s k = (g k, s2, k + 1)) ∧
    (∀ x s1, it.next s = (some x, s1) →
      first_or_else it (countingProducer g) s k = (x, s1, k)) ∧
    (∀ s1, it.next s = (none, s1) →
      first_or_else it (countingProducer g) s k = (g k, s1, k + 1)) := by
  refine ⟨?_, ?_, ?_, ?_, ?_⟩
  · intro x s1 s2 h1 h2
    simp [single_or_else, h1, h2]
  · intro s1 h
    simp [single_or_else, countingProducer, h]
  · intro x s1 y s2 h1 h2
    simp [single_or_else, countingProducer, h1, h2]
  · intro x s1 h
    simp [first_or_else, h]
  · intro s1 h
    simp [first_or_else, countingProducer, h]

/-- C4: for every cursor and default `d`, `first_or` returns the first
element when the cursor yields at least one element and `d` when it is
empty; when two or more elements exist it still returns the first,
regardless of `d`. -/
theorem first_or_contract (it : Iter σ α) (d : α) (s : σ) :
    (∀ s1, it.next s = (none, s1) → (first_or it d s).1 = d) ∧
    (∀ x s1, it.next s = (some x, s1) → (first_or it d s).1 = x) ∧
    (∀ x s1 y s2, it.next s = (some x, s1) → it.next s1 = (some y, s2) →
      (first_or it d s).1 = x) := by
  refine ⟨?_, ?_, ?_⟩
  · intro s1 h
    simp [first_or, h]
  · intro x s1 h
    simp [first_or, h]
  · intro x s1 y s2 h1 _
    simp [first_or, h1]

/-- C5: from every state of the `Intersect` adapter, the advance step of
the stub returns exhaustion and leaves the state untouched: it never
yields an element of the intended intersection. -/
theorem intersect_stub_exhausted (st : Intersect σa σb α) :
    Intersect.next st = (none, st) :=
  rfl

/-- Helper: the cursor state left by `single_or` equals the state left by
`single`, whatever the default. -/
theorem single_or_state (it : Iter σ α) (d : α) (s : σ) :
    (single_or it d s).2 = (single it s).2 := by
  cases h1 : it.next s with
  | mk o1 s1 =>
    cases o1 with
    | none => simp [single_or, single, h1]
    | some x =>
      cases h2 : it.next s1 with
      | mk o2 s2 => cases o2 <;> simp [single_or, single, h1, h2]

/-- Helper: the cursor state left by `single_or_else` equals the state
left by `single`, whatever the producer. -/
theorem single_or_else_state (it : Iter σ α) (f : ρ → α × ρ) (s : σ)
    (r : ρ) : (single_or_else it f s r).2.1 = (single it s).2 := by
  cases h1 : it.next s with
  | mk o1 s1 =>
    cases o1 with
    | none =>
      cases hf : f r with
      | mk v r1 => simp [single_or_else, single, h1, hf]
    | some x =>
      cases h2 : it.next s1 with
      | mk o2 s2 =>
        cases o2 with
        | none => simp [single_or_else, single, h1, h2]
        | some y =>
          cases hf : f r with
          | mk v r1 => simp [single_or_else, single, h1, h2, hf]

/-- Helper: `first_or` leaves exactly the state of one advance. -/
theorem first_or_state (it : Iter σ α) (d : α) (s : σ) :
    (first_or it d s).2 = (it.next s).2 := by
  cases h1 : it.next s with
  | mk o1 s1 => cases o1 <;> simp [first_or, h1]

/-- Helper: `first_or_else` leaves exactly the state of one advance. -/
theorem first_or_else_state (it : Iter σ α) (f : ρ → α × ρ) (s : σ)
    (r : ρ) : (first_or_else it f s r).2.1 = (it.next s).2 := by
  cases h1 : it.next s with
  | mk o1 s1 =>
    cases o1 with
    | none =>
      cases hf : f r with
      | mk v r1 => simp [first_or_else, h1, hf]
    | some x => simp [first_or_else, h1]

/-- Helper: on the instrumented cursor, `single` makes at most two
advances. -/
theorem single_counted_counter (it : Iter σ α) (s : σ) (n : Nat) :
    (single (counted it) (s, n)).2.2 ≤ n + 2 := by
  cases h1 : it.next s with
  | mk o1 s1 =>
    cases o1 with
    | none =>
      have e : (single (counted it) (s, n)).2.2 = n + 1 := by
        simp [single, counted, h1]
      omega
    | some x =>
      have e : (single (counted it) (s, n)).2.2 = n + 2 := by
        cases h2 : it.next s1 with
        | mk o2 s2 => cases o2 <;> simp [single, counted, h1, h2]
      omega

/-- Helper: one advance of the instrumented cursor bumps the counter by
exactly one. -/
theorem counted_next_counter (it : Iter σ α) (s : σ) (n : Nat) :
    ((counted it).next (s, n)).2.2 = n + 1 := by
  cases h1 : it.next s with
  | mk o1 s1 => simp [counted, h1]

/-- Helper: on the list cursor, `single` leaves the list with its first
two elements dropped. -/
theorem single_listIter_state (l : List α) :
    (single (listIter α) l).2 = l.drop 2 := by
  match l with
  | [] => rfl
  | [x] => rfl
  | x :: y :: t => rfl

/-- Helper: one advance of the list cursor drops the head. -/
theorem listIter_next_state (l : List α) :
    ((listIter α).next l).2 = l.drop 1 := by
  cases l <;> rfl

/-- C6: instrumenting any cursor with an advance counter, the four
single-style operations advance it at most twice and the three
first-style operations exactly once; on the list cursor the single-style
operations leave exactly the elements from the third onward and the
first-style operations exactly the elements from the second onward. -/
theorem consumption_frame [Inhabited α] (it : Iter σ α) (d : α)
    (f : ρ → α × ρ) (r : ρ) (s : σ) (n : Nat) (l : List α) :
    (single (counted it) (s, n)).2.2 ≤ n + 2 ∧
    (single_or (counted it) d (s, n)).2.2 ≤ n + 2 ∧
    (single_or_else (counted it) f (s, n) r).2.1.2 ≤ n + 2 ∧
    (single_or_default (counted it) (s, n)).2.2 ≤ n + 2 ∧
    (first_or (counted it) d (s, n)).2.2 = n + 1 ∧
    (first_or_else (counted it) f (s, n) r).2.1.2 = n + 1 ∧
    (first_or_default (counted it) (s, n)).2.2 = n + 1 ∧
    (single (listIter α) l).2 = l.drop 2 ∧
    (single_or (listIter α) d l).2 = l.drop 2 ∧
    (single_or_else (listIter α) f l r).2.1 = l.drop 2 ∧
    (single_or_default (listIter α) l).2 = l.drop 2 ∧
    (first_or (listIter α) d l).2 = l.drop 1 ∧
    (first_or_else (listIter α) f l r).2.1 = l.drop 1 ∧
    (first_or_default (listIter α) l).2 = l.drop 1 := by
  refine ⟨single_counted_counter it s n, ?_, ?_, ?_, ?_, ?_, ?_,
    single_listIter_state l, ?_, ?_, ?_, ?_, ?_, ?_⟩
  · rw [single_or_state]
    exact single_counted_counter it s n
  · rw [single_or_else_state]
    exact single_counted_counter it s n
  · rw [single_or_default, single_or_state]
    exact single_counted_counter it s n
  · rw [first_or_state]
    exact counted_next_counter it s n
  · rw [first_or_else_state]
    exact counted_next_counter it s n
  · rw [first_or_default, first_or_state]
    exact counted_next_counter it s n
  · rw [single_or_state]
    exact single_listIter_state l
  · rw [single_or_else_state]
    exact single_listIter_state l
  · rw [single_or_default, single_or_state]
    exact single_listIter_state l
  · rw [first_or_state]
    exact listIter_next_state l
  · rw [first_or_else_state]
    exact listIter_next_state l
  · rw [first_or_default, first_or_state]
    exact listIter_next_state l

/-- C7: `single_or_default` returns exactly the result of `single_or` at
the type default, and `first_or_default` the result of `first_or` at the
type default; on the empty integer cursor `first_or_default` yields 0 and
on `[1,2,3]` it yields 1. -/
theorem or_default_delegation [Inhabited α] (it : Iter σ α) (s : σ) :
    single_or_default it s = single_or it default s ∧
    first_or_default it s = first_or it default s ∧
    (first_or_default (listIter Int) []).1 = 0 ∧
    (first_or_default (listIter Int) [1, 2, 3]).1 = 1 :=
  ⟨rfl, rfl, rfl, rfl⟩

/-- C8: every operation is total and returns a present/absent or
present/fallback value — `single` yields `none` or a yielded element,
`single_or` and `first_or` yield the default or a yielded element — and a
zero-length cursor behaves identically to an exhausted cursor under all
seven operations. -/
theorem totality_and_empty_cursor [Inhabited α] (it : Iter σ α) (d : α)
    (f : ρ → α × ρ) (r : ρ) (s : σ) :
    ((single it s).1 = none ∨
      ∃ x s1, it.next s = (some x, s1) ∧ (single it s).1 = some x) ∧
    ((single_or it d s).1 = d ∨
      ∃ x s1, it.next s = (some x, s1) ∧ (single_or it d s).1 = x) ∧
    ((first_or it d s).1 = d ∨
      ∃ x s1, it.next s = (some x, s1) ∧ (first_or it d s).1 = x) ∧
    (single (listIter α) []).1 = (single (emptyIter α) ()).1 ∧
    (single_or (listIter α) d []).1 = (single_or (emptyIter α) d ()).1 ∧
    (single_or_else (listIter α) f [] r).1 =
      (single_or_else (emptyIter α) f () r).1 ∧
    (single_or_default (listIter α) []).1 =
      (single_or_default (emptyIter α) ()).1 ∧
    (first_or (listIter α) d []).1 = (first_or (emptyIter α) d ()).1 ∧
    (first_or_else (listIter α) f [] r).1 =
      (first_or_else (emptyIter α) f () r).1 ∧
    (first_or_default (listIter α) []).1 =
      (first_or_default (emptyIter α) ()).1 := by
  refine ⟨?_, ?_, ?_, rfl, rfl, ?_, rfl, rfl, ?_, rfl⟩
  · cases h1 : it.next s with
    | mk o1 s1 =>
      cases o1 with
      | none => exact Or.inl (by simp [single, h1])
      | some x =>
        cases h2 : it.next s1 with
        | mk o2 s2 =>
          cases o2 with
          | none => exact Or.inr ⟨x, s1, rfl, by simp [single, h1, h2]⟩
          | some y => exact Or.inl (by simp [single, h1, h2])
  · cases h1 : it.next s with
    | mk o1 s1 =>
      cases o1 with
      | none => exact Or.inl (by simp [single_or, h1])
      | some x =>
        cases h2 : it.next s1 with
        | mk o2 s2 =>
          cases o2 with
          | none => exact Or.inr ⟨x, s1, rfl, by simp [single_or, h1, h2]⟩
          | some y => exact Or.inl (by simp [single_or, h1, h2])
  · cases h1 : it.next s with
    | mk o1 s1 =>
      cases o1 with
      | none => exact Or.inl (by simp [first_or, h1])
      | some x => exact Or.inr ⟨x, s1, rfl, by simp [first_or, h1]⟩
  · cases hf : f r with
    | mk v r1 => simp [single_or_else, listIter, emptyIter, hf]
  · cases hf : f r with
    | mk v r1 => simp [first_or_else, listIter, emptyIter, hf]

/-- C9: repeated length queries on a non-consuming view all return the
length of the underlying data and leave the view unchanged; in
particular two queries on the view over `[10,20,30,40]` both return 4. -/
theorem len_query_stable (l : List α) (n : Nat) :
    lenQueries l n = List.replicate n l.length ∧
    afterLenQueries l n = l ∧
    lenQueries ([10, 20, 30, 40] : List Int) 2 = [4, 4] := by
  refine ⟨?_, ?_, rfl⟩
  · induction n with
    | zero => rfl
    | succ m ih => simp [lenQueries, lenQuery, ih, List.replicate_succ]
  · induction n with
    | zero => rfl
    | succ m ih => simpa [afterLenQueries, lenQuery] using ih

/-- C10: the free function `single_func` of single_tests.rs returns the
 same result and leaves the cursor in the same state as the trait method
`single` on every cursor. -/
theorem single_func_equiv (it : Iter σ α) (s : σ) :
    single_func it s = single it s :=
  rfl

end Linq
